import Mathlib

/-!
Verification of `common/static/common/js/discussion/views/discussion_topic_menu_view.js`
(the `DiscussionTopicMenuView` Backbone view).

The development shallowly embeds the view's data and operations:

* `JSValue` models the JavaScript values that flow through the view's state
  (`options.topicId`, the result of jQuery's `.data('discussion-id')`), with
  `jsTruthy` modelling JavaScript truthiness.
* `jqData` models jQuery's `.data` attribute conversion: the raw attribute
  string is turned into `true`/`false`/`null`/a number when it round-trips,
  and kept as a string otherwise.  (Non-integral numeric strings are kept as
  strings here; their truthiness and string form agree with JavaScript, and
  nothing in the view distinguishes them further.)
* `DomNode` models the fragment of the DOM the view queries: `option`
  elements (with their raw `data-discussion-id` attribute, inner text and
  selectedness), `optgroup` wrappers and `select` elements.  jQuery's
  `$('option:selected', $target)` is `jqFindSelected`: it searches the
  *descendants* of the target elements, in document order, for selected
  options; an `option` element has no element descendants.
* `CategoryMap` is the `category_map` tree (`children` order, `entries` and
  `subcategories` as association lists keyed by child name), `Templates` the
  two externally supplied underscore templates, and `renderCategoryMap` the
  recursive renderer; a missing subcategory makes the JavaScript throw, which
  is modelled by `Option` (`none` = exception).
* `View` is the view's own state (`course_settings`, `currentTopicId`,
  `topicText`); `setTopic`, `render`, `initializeView`, `getCurrentTopicId`
  and `getFullTopicName` are the view's methods.  A `thread:topic_change`
  trigger is an `Emission`, recording the option payload and the view state
  at the moment the trigger fires (the two field assignments precede the
  trigger in the source).
-/

namespace DiscussionTopicMenu

/-- JavaScript value as stored in the view's fields and produced by jQuery's
`.data` parsing. -/
inductive JSValue where
  | undefined
  | null
  | bool (b : Bool)
  | num (n : Int)
  | str (s : String)
deriving DecidableEq

/-- JavaScript truthiness of a `JSValue`, as used by `if ($option.data('discussion-id'))`
and `if (this.getCurrentTopicId())`. -/
def jsTruthy : JSValue → Bool
  | .undefined => false
  | .null => false
  | .bool b => b
  | .num n => n != 0
  | .str s => s != ""

/-- JavaScript string coercion, as used by the string concatenation
`'[data-discussion-id="' + this.getCurrentTopicId() + '"]'`. -/
def jsToString : JSValue → String
  | .undefined => "undefined"
  | .null => "null"
  | .bool true => "true"
  | .bool false => "false"
  | .num n => toString n
  | .str s => s

/-- Decimal value of a digit character. -/
def digitOf (c : Char) : Option Nat :=
  if c = '0' then some 0
  else if c = '1' then some 1
  else if c = '2' then some 2
  else if c = '3' then some 3
  else if c = '4' then some 4
  else if c = '5' then some 5
  else if c = '6' then some 6
  else if c = '7' then some 7
  else if c = '8' then some 8
  else if c = '9' then some 9
  else none

/-- Reads a run of decimal digits into an accumulator; any non-digit aborts. -/
def natOfDigits (acc : Nat) : List Char → Option Nat
  | [] => some acc
  | c :: cs =>
    match digitOf c with
    | some d => natOfDigits (acc * 10 + d) cs
    | none => none

/-- The strings that survive JavaScript's `+data + "" === data` round-trip
(restricted to integers): exactly the canonical decimal form of an integer —
`"0"`, or a nonempty digit run without a leading zero, optionally preceded
by `'-'` for a negative value. -/
def canonicalInt : List Char → Option Int
  | [] => none
  | '-' :: rest =>
    (match rest with
     | [] => none
     | c :: cs =>
       if c = '0' then none
       else (natOfDigits 0 (c :: cs)).map (fun n => -(n : Int)))
  | c :: cs =>
    if c = '0' then (if cs = [] then some 0 else none)
    else (natOfDigits 0 (c :: cs)).map (fun n => (n : Int))

/-- jQuery `.data('discussion-id')`: the raw HTML attribute (absent = `none`)
is converted — `"true"`, `"false"`, `"null"` and strings in canonical integer
form become the corresponding values, everything else stays a string.
(jQuery also converts non-integral numeric strings such as `"1.5"`; those are
kept as strings here — their truthiness and string coercion agree with the
number's, and the view inspects nothing else.) -/
def jqData : Option String → JSValue
  | none => .undefined
  | some s =>
    if s = "true" then .bool true
    else if s = "false" then .bool false
    else if s = "null" then .null
    else
      match canonicalInt s.data with
      | some n => .num n
      | none => .str s

/-- The data carried by one `<option>` element: its raw `data-discussion-id`
attribute (`none` when absent), its inner text (`.html()`), and whether it is
currently selected. -/
structure OptionData where
  discussionIdAttr : Option String
  label : String
  selected : Bool
deriving DecidableEq

/-- The fragment of the DOM the view queries: options, `optgroup` wrappers
(with their `label` attribute) and `select` elements.  An `option` element
has no element children. -/
inductive DomNode where
  | optionNode (d : OptionData)
  | groupNode (label : String) (children : List DomNode)
  | selectNode (children : List DomNode)

/-- An option as returned by a jQuery query: its data together with the
labels of its `optgroup` ancestors, closest ancestor first (the order
`.parents('optgroup')` yields). -/
structure OptionElement where
  data : OptionData
  ancestors : List String
deriving DecidableEq

mutual
/-- All `option` elements in the subtree rooted at a node (the node itself
included), in document order, each with its `optgroup` ancestor labels
(closest first, on top of the accumulated context `anc`). -/
def optionsIn (anc : List String) : DomNode → List OptionElement
  | .optionNode d => [⟨d, anc⟩]
  | .groupNode lbl cs => optionsInList (lbl :: anc) cs
  | .selectNode cs => optionsInList anc cs

/-- `optionsIn` over a list of siblings, concatenated in document order. -/
def optionsInList (anc : List String) : List DomNode → List OptionElement
  | [] => []
  | n :: ns => optionsIn anc n ++ optionsInList anc ns
end

/-- jQuery `this.$('option')`: every option under the view's root element
(whose child nodes are `dom`), in document order. -/
def jqAllOptions (dom : List DomNode) : List OptionElement :=
  optionsInList [] dom

/-- The options strictly *below* one node: a bare `option` element has no
element descendants, so it contributes nothing. -/
def childOptions : DomNode → List OptionElement
  | .optionNode _ => []
  | .groupNode lbl cs => optionsInList [lbl] cs
  | .selectNode cs => optionsInList [] cs

/-- jQuery `$('option', $target)` — equivalently `$target.find('option')`:
the option descendants of each target element, in document order. -/
def jqFindOptions : List DomNode → List OptionElement
  | [] => []
  | n :: ns => childOptions n ++ jqFindOptions ns

/-- jQuery `$('option:selected', $target)`: the selected option descendants
of the target elements. -/
def jqFindSelected (target : List DomNode) : List OptionElement :=
  (jqFindOptions target).filter (fun o => o.data.selected)

/-- A leaf of the category map: `entries[name]` is an object with an `id`
and an `is_cohorted` flag. -/
structure Entry where
  id : String
  is_cohorted : Bool
deriving DecidableEq

/-- The `category_map` tree: an ordered list of child names, plus the
`entries` and `subcategories` objects, modelled as association lists keyed
by child name. -/
inductive CategoryMap where
  | node (children : List String) (entries : List (String × Entry))
      (subcategories : List (String × CategoryMap))

/-- The course settings model: the view only reads its `category_map`. -/
structure CourseSettings where
  category_map : CategoryMap

/-- The two externally supplied underscore templates used by
`renderCategoryMap`: the entry template receives `text`, `id` and
`is_cohorted`; the category template receives `text` and the rendered
`entries` markup. -/
structure Templates where
  entryTemplate : String → String → Bool → String
  categoryTemplate : String → String → String

/-- The view's own state: the stored settings model and the two fields
`currentTopicId` and `topicText` (`none` = still `undefined`). -/
structure View where
  course_settings : CourseSettings
  currentTopicId : JSValue
  topicText : Option String

/-- One `thread:topic_change` trigger: its `$option` payload and the view
state at the moment the trigger fires. -/
structure Emission where
  option : OptionElement
  viewAt : View

/-- `getCurrentTopicId()`. -/
def getCurrentTopicId (v : View) : JSValue :=
  v.currentTopicId

/-- The full topic name of one option element: starting from the option's
inner text, each `optgroup` ancestor label (closest first) is prefixed with
a `" / "` separator. -/
def getFullTopicNameOf (opt : OptionElement) : String :=
  opt.ancestors.foldl (fun acc lbl => lbl ++ " / " ++ acc) opt.data.label

/-- `getFullTopicName(topicElement)`: with an argument, the slash-separated
ancestor path of that option; without one, the cached `topicText`. -/
def getFullTopicName (v : View) (topicElement : Option OptionElement) : Option String :=
  match topicElement with
  | some opt => some (getFullTopicNameOf opt)
  | none => v.topicText

/-- `setTopic($target)`: reads `$('option:selected', $target)` (jQuery
`.data` and `.html` act on the first element of a collection; on an empty
collection `.data` yields `undefined`, which is falsy).  When the first
selected option's parsed `data-discussion-id` is truthy, `topicText` and
`currentTopicId` are assigned and then the `thread:topic_change` trigger
fires; otherwise nothing happens. -/
def setTopic (v : View) (target : List DomNode) : View × List Emission :=
  match (jqFindSelected target).head? with
  | none => (v, [])
  | some opt =>
    if jsTruthy (jqData opt.data.discussionIdAttr) then
      let v2 : View :=
        { v with
          topicText := getFullTopicName v (some opt),
          currentTopicId := jqData opt.data.discussionIdAttr }
      (v2, [⟨opt, v2⟩])
    else
      (v, [])

/-- `handleTopicEvent(event)`: delegates to `setTopic` with the jQuery-wrapped
event target (the `select` element the change event fired on). -/
def handleTopicEvent (v : View) (eventTarget : DomNode) : View × List Emission :=
  setTopic v [eventTarget]

/-- The argument object of `initialize`. -/
structure InitOptions where
  course_settings : CourseSettings
  topicId : JSValue

/-- `initialize(options)`: assigns `course_settings` and `currentTopicId`
from the options (and binds `handleTopicEvent`, which changes no state);
`topicText` is left `undefined` and nothing is triggered. -/
def initializeView (options : InitOptions) : View × List Emission :=
  ({ course_settings := options.course_settings,
     currentTopicId := options.topicId,
     topicText := none }, [])

/-- JavaScript object access `obj[key]` on an object with the given own
properties, first binding wins (`_.has(obj, key)` is `(assoc obj key).isSome`). -/
def assoc {α : Type} : List (String × α) → String → Option α
  | [], _ => none
  | (k, v) :: rest, key => if k = key then some v else assoc rest key

/-- Sequencing of fallible per-element computations, modelling that a thrown
exception inside `_.map` aborts the whole call. -/
def mapOpt {α β : Type} (f : α → Option β) : List α → Option (List β)
  | [] => some []
  | a :: as => (f a).bind (fun b => (mapOpt f as).map (fun bs => b :: bs))

/-- JavaScript `array.join('')`: plain concatenation. -/
def joinAll : List String → String
  | [] => ""
  | s :: rest => s ++ joinAll rest

theorem sizeOf_assoc {α : Type} [SizeOf α] {l : List (String × α)} {k : String}
    {v : α} (h : assoc l k = some v) : sizeOf v < sizeOf l := by
  induction l with
  | nil => simp [assoc] at h
  | cons p rest ih =>
    obtain ⟨k2, v2⟩ := p
    rw [assoc] at h
    split at h
    · injection h with h2
      subst h2
      simp
      omega
    · have := ih h
      simp
      omega

/-- `renderCategoryMap(map)`: one markup fragment per child name, in
`children` order, joined by `''`.  A name present in `entries` is rendered
with the entry template; otherwise the subcategory of that name is rendered
recursively and wrapped with the category template.  A name present in
neither makes the JavaScript recurse into `undefined` and throw (`none`). -/
def renderCategoryMap (t : Templates) : CategoryMap → Option String
  | .node children entries subcategories =>
    (mapOpt (fun name =>
      match assoc entries name with
      | some entry => some (t.entryTemplate name entry.id entry.is_cohorted)
      | none =>
        match hsub : assoc subcategories name with
        | some sub => (renderCategoryMap t sub).map (t.categoryTemplate name)
        | none => none) children).map joinAll
termination_by m => sizeOf m
decreasing_by
  have := sizeOf_assoc hsub
  simp
  omega

/-- The fragment `renderCategoryMap` produces for one child name of a node
with the given `entries` and `subcategories`. -/
def childFragment (t : Templates) (entries : List (String × Entry))
    (subcategories : List (String × CategoryMap)) (name : String) : Option String :=
  match assoc entries name with
  | some entry => some (t.entryTemplate name entry.id entry.is_cohorted)
  | none =>
    match hsub : assoc subcategories name with
    | some sub => (renderCategoryMap t sub).map (t.categoryTemplate name)
    | none => none

/-- Depth of a category map: one more than the greatest depth of any
subcategory (`1` for a node with no subcategories). -/
def depth : CategoryMap → Nat
  | .node _ _ subcategories =>
    1 + (subcategories.attach.map (fun p => depth p.1.2)).foldr Nat.max 0
termination_by m => sizeOf m
decreasing_by
  obtain ⟨⟨k2, m2⟩, hm⟩ := p
  have := List.sizeOf_lt_of_mem hm
  simp at this ⊢
  omega

/-- Fuel-indexed variant of `renderCategoryMap`: each recursive step burns
one unit of fuel, and exhausted fuel aborts with `none`. -/
def renderCategoryMapFuel (t : Templates) : Nat → CategoryMap → Option String
  | 0, _ => none
  | n + 1, .node children entries subcategories =>
    (mapOpt (fun name =>
      match assoc entries name with
      | some entry => some (t.entryTemplate name entry.id entry.is_cohorted)
      | none =>
        match assoc subcategories name with
        | some sub => (renderCategoryMapFuel t n sub).map (t.categoryTemplate name)
        | none => none) children).map joinAll

/-- What a `render()` call produces: the updated view, the triggers fired,
and the returned root element `this.$el` (represented by its child nodes
after `this.$el.html(...)`). -/
structure RenderResult where
  view : View
  events : List Emission
  el : List DomNode

/-- The jQuery collection `render()` passes to `setTopic`: when
`getCurrentTopicId()` is truthy, `this.$('option', '.post-topic')` filtered
by `[data-discussion-id="<current id>"]` (Backbone's `this.$` takes a single
selector, so the second argument is ignored and all options under `$el` are
considered); otherwise `.first()` of all options.  Either way the collection
consists of bare `option` elements. -/
def renderTarget (v : View) (dom : List DomNode) : List DomNode :=
  if jsTruthy (getCurrentTopicId v) then
    ((jqAllOptions dom).filter
      (fun o => o.data.discussionIdAttr = some (jsToString (getCurrentTopicId v)))).map
      (fun o => DomNode.optionNode o.data)
  else
    match (jqAllOptions dom).head? with
    | some o => [DomNode.optionNode o.data]
    | none => []

/-- `render()`: computes `topics_html` with `renderCategoryMap` (a thrown
exception aborts the whole call), fills `$el` through the external
`#topic-template` (modelled by `tmpl`, mapping the `topics_html` string to
the resulting child nodes of `$el`), then calls `setTopic` with
`renderTarget` and returns `this.$el`. -/
def render (t : Templates) (tmpl : String → List DomNode) (v : View) :
    Option RenderResult :=
  match renderCategoryMap t v.course_settings.category_map with
  | none => none
  | some topicsHtml =>
    some ⟨(setTopic v (renderTarget v (tmpl topicsHtml))).1,
          (setTopic v (renderTarget v (tmpl topicsHtml))).2,
          tmpl topicsHtml⟩

/-- One step of the fuel-indexed renderer, with `n` units of fuel left for
the subcategory recursion. -/
def childFragmentFuel (t : Templates) (n : Nat) (entries : List (String × Entry))
    (subcategories : List (String × CategoryMap)) (name : String) : Option String :=
  match assoc entries name with
  | some entry => some (t.entryTemplate name entry.id entry.is_cohorted)
  | none =>
    match assoc subcategories name with
    | some sub => (renderCategoryMapFuel t n sub).map (t.categoryTemplate name)
    | none => none

/-- A list of path components joined by the `" / "` separator (the spec's
slash-separated ancestor path). -/
def slashJoin : List String → String
  | [] => ""
  | [x] => x
  | x :: y :: rest => x ++ " / " ++ slashJoin (y :: rest)

/-! ## Helper lemmas -/

theorem assoc_mem {α : Type} {l : List (String × α)} {k : String} {v : α}
    (h : assoc l k = some v) : (k, v) ∈ l := by
  induction l with
  | nil => simp [assoc] at h
  | cons p rest ih =>
    obtain ⟨k2, v2⟩ := p
    rw [assoc] at h
    split at h
    · rename_i heq
      injection h with h2
      subst h2
      subst heq
      exact List.mem_cons_self _ _
    · exact List.mem_cons_of_mem _ (ih h)

theorem le_foldr_max {l : List Nat} {x : Nat} (h : x ∈ l) :
    x ≤ l.foldr Nat.max 0 := by
  induction l with
  | nil => cases h
  | cons a as ih =>
    rcases List.mem_cons.mp h with h1 | h2
    · subst h1
      exact Nat.le_max_left _ _
    · exact le_trans (ih h2) (Nat.le_max_right _ _)

theorem depth_assoc_lt {s : List (String × CategoryMap)} {name : String}
    {sub : CategoryMap} (h : assoc s name = some sub) (ch : List String)
    (e : List (String × Entry)) : depth sub < depth (.node ch e s) := by
  have hmem : (name, sub) ∈ s := assoc_mem h
  have hx : depth sub ∈ s.attach.map (fun p => depth p.1.2) :=
    List.mem_map.mpr ⟨⟨(name, sub), hmem⟩, List.mem_attach _ _, rfl⟩
  have hle := le_foldr_max hx
  simp only [depth]
  omega

theorem renderCategoryMap_node (t : Templates) (ch : List String)
    (e : List (String × Entry)) (s : List (String × CategoryMap)) :
    renderCategoryMap t (.node ch e s) = (mapOpt (childFragment t e s) ch).map joinAll := by
  rw [renderCategoryMap]
  rfl

theorem renderCategoryMapFuel_succ (t : Templates) (n : Nat) (ch : List String)
    (e : List (String × Entry)) (s : List (String × CategoryMap)) :
    renderCategoryMapFuel t (n + 1) (.node ch e s) =
      (mapOpt (childFragmentFuel t n e s) ch).map joinAll := rfl

theorem childFragment_entry (t : Templates) (e : List (String × Entry))
    (s : List (String × CategoryMap)) (name : String) (entry : Entry)
    (h : assoc e name = some entry) :
    childFragment t e s name = some (t.entryTemplate name entry.id entry.is_cohorted) := by
  unfold childFragment
  rw [h]

theorem childFragment_sub (t : Templates) (e : List (String × Entry))
    (s : List (String × CategoryMap)) (name : String) (sub : CategoryMap)
    (hE : assoc e name = none) (hS : assoc s name = some sub) :
    childFragment t e s name = (renderCategoryMap t sub).map (t.categoryTemplate name) := by
  unfold childFragment
  rw [hE]
  split
  · rename_i sub2 hS2
    cases hS2
  · split
    · rename_i sub3 hS3
      rw [hS3] at hS
      injection hS with h4
      rw [h4]
    · rename_i hS3
      rw [hS3] at hS
      cases hS

theorem childFragment_noneBoth (t : Templates) (e : List (String × Entry))
    (s : List (String × CategoryMap)) (name : String)
    (hE : assoc e name = none) (hS : assoc s name = none) :
    childFragment t e s name = none := by
  unfold childFragment
  rw [hE]
  split
  · rename_i sub2 hS2
    cases hS2
  · split
    · rename_i sub3 hS3
      rw [hS3] at hS
      cases hS
    · rfl

theorem slashJoin_cons (x : String) (l : List String) (h : l ≠ []) :
    slashJoin (x :: l) = x ++ " / " ++ slashJoin l := by
  cases l with
  | nil => cases h rfl
  | cons y ys => rfl

theorem slashJoin_append_pair (xs : List String) (a b : String) :
    slashJoin (xs ++ [a ++ " / " ++ b]) = slashJoin (xs ++ [a, b]) := by
  induction xs with
  | nil => rfl
  | cons x xs ih =>
    rw [List.cons_append, List.cons_append,
      slashJoin_cons x (xs ++ [a ++ " / " ++ b]) (by simp),
      slashJoin_cons x (xs ++ [a, b]) (by simp), ih]

theorem foldl_slash (l : List String) (b : String) :
    l.foldl (fun acc lbl => lbl ++ " / " ++ acc) b = slashJoin (l.reverse ++ [b]) := by
  induction l generalizing b with
  | nil => rfl
  | cons a as ih =>
    rw [List.foldl_cons, ih, List.reverse_cons, List.append_assoc]
    exact slashJoin_append_pair as.reverse a b

theorem jqFindOptions_of_optionNodes (target : List DomNode)
    (h : ∀ n ∈ target, ∃ d, n = DomNode.optionNode d) : jqFindOptions target = [] := by
  induction target with
  | nil => rfl
  | cons n ns ih =>
    obtain ⟨d, rfl⟩ := h n (List.mem_cons_self n ns)
    rw [jqFindOptions, ih (fun x hx => h x (List.mem_cons_of_mem _ hx))]
    rfl

theorem jqFindSelected_of_optionNodes (target : List DomNode)
    (h : ∀ n ∈ target, ∃ d, n = DomNode.optionNode d) : jqFindSelected target = [] := by
  unfold jqFindSelected
  rw [jqFindOptions_of_optionNodes target h]
  rfl

theorem setTopic_no_selected (v : View) (target : List DomNode)
    (h : jqFindSelected target = []) : setTopic v target = (v, []) := by
  unfold setTopic
  rw [h]
  rfl

theorem renderTarget_optionNodes (v : View) (dom : List DomNode) :
    ∀ n ∈ renderTarget v dom, ∃ d, n = DomNode.optionNode d := by
  intro n hn
  unfold renderTarget at hn
  split at hn
  · obtain ⟨o, ho, rfl⟩ := List.mem_map.mp hn
    exact ⟨o.data, rfl⟩
  · split at hn
    · rcases List.mem_singleton.mp hn with rfl
      exact ⟨_, rfl⟩
    · cases hn

theorem setTopic_renderTarget (v : View) (dom : List DomNode) :
    setTopic v (renderTarget v dom) = (v, []) :=
  setTopic_no_selected _ _
    (jqFindSelected_of_optionNodes _ (renderTarget_optionNodes v dom))

/-! ## Claim theorems -/

/-- C1: For every call to `setTopic(target)`: if the currently selected
option under `target` carries a (truthy) topic id, then the current topic id
and the current display name are both updated to that option's values and
exactly one `thread:topic_change` trigger fires, carrying the selected
option; if its id is not truthy, the state is left unchanged and nothing
fires. -/
theorem setTopic_selected_spec (v : View) (target : List DomNode)
    (opt : OptionElement) (hsel : (jqFindSelected target).head? = some opt) :
    (jsTruthy (jqData opt.data.discussionIdAttr) = true →
      getCurrentTopicId (setTopic v target).1 = jqData opt.data.discussionIdAttr ∧
      getFullTopicName (setTopic v target).1 none = some (getFullTopicNameOf opt) ∧
      (setTopic v target).2 = [⟨opt, (setTopic v target).1⟩]) ∧
    (jsTruthy (jqData opt.data.discussionIdAttr) = false →
      (setTopic v target).1 = v ∧ (setTopic v target).2 = []) := by
  unfold setTopic
  rw [hsel]
  cases h : jsTruthy (jqData opt.data.discussionIdAttr) <;>
    simp [h, getCurrentTopicId, getFullTopicName]

theorem setTopic_selected_spec_witness :
    getCurrentTopicId (setTopic ⟨⟨.node [] [] []⟩, .undefined, none⟩
        [DomNode.selectNode [DomNode.optionNode ⟨some "t-9", "General", true⟩]]).1 =
      JSValue.str "t-9" ∧
    (setTopic ⟨⟨.node [] [] []⟩, .undefined, none⟩
        [DomNode.selectNode [DomNode.optionNode ⟨some "t-9", "General", true⟩]]).2.length = 1 := by
  have h := setTopic_selected_spec ⟨⟨.node [] [] []⟩, .undefined, none⟩
    [DomNode.selectNode [DomNode.optionNode ⟨some "t-9", "General", true⟩]]
    ⟨⟨some "t-9", "General", true⟩, []⟩ (by rfl)
  obtain ⟨ha, hb, hc⟩ := h.1 (by rfl)
  constructor
  · rw [ha]
    rfl
  · rw [hc]
    rfl

/-- C2: the claim that `render()` adopts the option matching the stored id
(or the first option) fails on the code: `setTopic` looks for a *selected
option among the descendants* of the collection it is handed, and `render`
hands it bare `option` elements, which have no descendants.  At a concrete
input whose DOM holds exactly one option, matching the stored id and even
DOM-selected, `render` returns the root element but leaves the view
unchanged — `topicText` stays `undefined` instead of becoming the matched
option's name — and the same happens in the no-stored-id branch. -/
theorem render_matching_option_ignored :
    ((jqAllOptions [DomNode.selectNode [DomNode.optionNode ⟨some "t1", "General", true⟩]]).filter
        (fun o => o.data.discussionIdAttr = some (jsToString (JSValue.str "t1")))).length = 1 ∧
    render ⟨fun _ _ _ => "", fun _ _ => ""⟩
        (fun _ => [DomNode.selectNode [DomNode.optionNode ⟨some "t1", "General", true⟩]])
        ⟨⟨.node [] [] []⟩, .str "t1", none⟩ =
      some ⟨⟨⟨.node [] [] []⟩, .str "t1", none⟩, [],
        [DomNode.selectNode [DomNode.optionNode ⟨some "t1", "General", true⟩]]⟩ ∧
    render ⟨fun _ _ _ => "", fun _ _ => ""⟩
        (fun _ => [DomNode.selectNode [DomNode.optionNode ⟨some "t1", "General", true⟩]])
        ⟨⟨.node [] [] []⟩, .undefined, none⟩ =
      some ⟨⟨⟨.node [] [] []⟩, .undefined, none⟩, [],
        [DomNode.selectNode [DomNode.optionNode ⟨some "t1", "General", true⟩]]⟩ := by
  refine ⟨rfl, ?_, ?_⟩ <;>
    · unfold render
      rw [renderCategoryMap_node]
      rfl

/-- C3: for every node of the category map, `renderCategoryMap` returns the
concatenation (`joinAll`), in exactly `children` order, of one fragment per
child name (`childFragment`: the entry template applied to the label, id and
cohort flag for a leaf entry, and otherwise the category template wrapping
the recursively rendered subcategory); in particular two sibling entries
render as their two fragments concatenated in `children` order. -/
theorem renderCategoryMap_fragments :
    (∀ (t : Templates) (ch : List String) (e : List (String × Entry))
        (s : List (String × CategoryMap)),
      renderCategoryMap t (.node ch e s) =
        (mapOpt (childFragment t e s) ch).map joinAll) ∧
    (∀ (t : Templates) (eA eB : Entry),
      renderCategoryMap t (.node ["A", "B"] [("A", eA), ("B", eB)] []) =
        some (t.entryTemplate "A" eA.id eA.is_cohorted ++
          t.entryTemplate "B" eB.id eB.is_cohorted)) := by
  refine ⟨renderCategoryMap_node, ?_⟩
  intro t eA eB
  rw [renderCategoryMap_node]
  show some (t.entryTemplate "A" eA.id eA.is_cohorted ++
    (t.entryTemplate "B" eB.id eB.is_cohorted ++ "")) = _
  rw [String.append_empty]

/-- C4: `getFullTopicName` on an option element returns the option's label
prefixed by its ancestor group labels walked outward-to-root, joined by
`" / "`; in particular an option labelled `"Label"` inside group `"Inner"`
inside group `"Outer"` yields `"Outer / Inner / Label"`. -/
theorem getFullTopicName_spec :
    (∀ (v : View) (opt : OptionElement),
      getFullTopicName v (some opt) =
        some (slashJoin (opt.ancestors.reverse ++ [opt.data.label]))) ∧
    getFullTopicNameOf ⟨⟨some "id-7", "Label", false⟩, ["Inner", "Outer"]⟩ =
      "Outer / Inner / Label" := by
  constructor
  · intro v opt
    exact congrArg some (foldl_slash opt.ancestors opt.data.label)
  · rfl

/-- C5: no operation other than the user topic-change event handler (which
delegates to `setTopic`) modifies the current topic id or display name: in
particular every successful `render()` returns the view state exactly as it
was and fires no trigger, and the accessors are pure. -/
theorem render_preserves_topic_state (t : Templates) (tmpl : String → List DomNode)
    (v : View) (r : RenderResult) (h : render t tmpl v = some r) :
    r.view = v ∧ r.events = [] := by
  unfold render at h
  cases hr : renderCategoryMap t v.course_settings.category_map with
  | none =>
    rw [hr] at h
    cases h
  | some topicsHtml =>
    rw [hr] at h
    simp only [setTopic_renderTarget, Option.some.injEq] at h
    rw [← h]
    exact ⟨rfl, rfl⟩

theorem render_preserves_topic_state_witness :
    render ⟨fun _ _ _ => "", fun _ _ => ""⟩ (fun _ => [])
        ⟨⟨.node [] [] []⟩, .undefined, none⟩ =
      some ⟨⟨⟨.node [] [] []⟩, .undefined, none⟩, [], []⟩ ∧
    (⟨⟨⟨.node [] [] []⟩, .undefined, none⟩, [], []⟩ : RenderResult).view =
      ⟨⟨.node [] [] []⟩, .undefined, none⟩ ∧
    (⟨⟨⟨.node [] [] []⟩, .undefined, none⟩, [], []⟩ : RenderResult).events = [] := by
  have hr : render ⟨fun _ _ _ => "", fun _ _ => ""⟩ (fun _ => [])
      ⟨⟨.node [] [] []⟩, .undefined, none⟩ =
      some ⟨⟨⟨.node [] [] []⟩, .undefined, none⟩, [], []⟩ := by
    unfold render
    rw [renderCategoryMap_node]
    rfl
  have h2 := render_preserves_topic_state _ _ _ _ hr
  exact ⟨hr, h2.1, h2.2⟩

/-- C6: `initialize` stores the settings object and the optional initial
topic id into the view's fields and does nothing else: `topicText` stays
`undefined` and no trigger fires. -/
theorem initializeView_spec (options : InitOptions) :
    initializeView options =
      ({ course_settings := options.course_settings,
         currentTopicId := options.topicId,
         topicText := none }, []) := rfl

/-- C7: on every finite category map, `renderCategoryMap` terminates:
the fuel-indexed variant agrees with it as soon as the fuel exceeds the
tree's depth, so the recursion needs exactly as many nested steps as the
finite input is deep (it performs no cycle detection — finiteness is
exactly what the inductive `CategoryMap` provides). -/
theorem renderCategoryMapFuel_spec (t : Templates) (n : Nat) (m : CategoryMap)
    (h : depth m < n) : renderCategoryMapFuel t n m = renderCategoryMap t m := by
  induction n generalizing m with
  | zero => exact absurd h (Nat.not_lt_zero _)
  | succ n ih =>
    obtain ⟨ch, e, s⟩ := m
    rw [renderCategoryMapFuel_succ, renderCategoryMap_node]
    have hfun : childFragmentFuel t n e s = childFragment t e s := by
      funext name
      cases hE : assoc e name with
      | some entry =>
        rw [childFragment_entry t e s name entry hE]
        unfold childFragmentFuel
        rw [hE]
      | none =>
        cases hS : assoc s name with
        | some sub =>
          rw [childFragment_sub t e s name sub hE hS]
          unfold childFragmentFuel
          rw [hE, hS]
          have hd := depth_assoc_lt hS ch e
          show (renderCategoryMapFuel t n sub).map (t.categoryTemplate name) =
            (renderCategoryMap t sub).map (t.categoryTemplate name)
          rw [ih sub (by omega)]
        | none =>
          rw [childFragment_noneBoth t e s name hE hS]
          unfold childFragmentFuel
          rw [hE, hS]
    rw [hfun]

theorem renderCategoryMapFuel_spec_witness :
    depth (CategoryMap.node ["A", "Sub"] [("A", ⟨"id-a", false⟩)]
      [("Sub", CategoryMap.node ["B"] [("B", ⟨"id-b", true⟩)] [])]) < 3 ∧
    renderCategoryMapFuel ⟨fun _ i _ => i, fun _ e => e⟩ 3
        (CategoryMap.node ["A", "Sub"] [("A", ⟨"id-a", false⟩)]
          [("Sub", CategoryMap.node ["B"] [("B", ⟨"id-b", true⟩)] [])]) =
      renderCategoryMap ⟨fun _ i _ => i, fun _ e => e⟩
        (CategoryMap.node ["A", "Sub"] [("A", ⟨"id-a", false⟩)]
          [("Sub", CategoryMap.node ["B"] [("B", ⟨"id-b", true⟩)] [])]) := by
  have hd : depth (CategoryMap.node ["A", "Sub"] [("A", ⟨"id-a", false⟩)]
      [("Sub", CategoryMap.node ["B"] [("B", ⟨"id-b", true⟩)] [])]) < 3 := by
    simp [depth]
  exact ⟨hd, renderCategoryMapFuel_spec _ 3 _ hd⟩

/-- C8: when the selected option's `data-discussion-id` is present but
parses to a falsy value (such as the number `0` or the empty string),
`setTopic` treats it as absent: the state is unchanged and nothing fires. -/
theorem setTopic_falsy_id_noop (v : View) (target : List DomNode)
    (opt : OptionElement) (hsel : (jqFindSelected target).head? = some opt)
    (hpresent : opt.data.discussionIdAttr ≠ none)
    (hfalsy : jsTruthy (jqData opt.data.discussionIdAttr) = false) :
    setTopic v target = (v, []) := by
  unfold setTopic
  rw [hsel]
  simp [hfalsy]

theorem setTopic_falsy_id_noop_witness :
    setTopic ⟨⟨.node [] [] []⟩, .undefined, none⟩
        [DomNode.selectNode [DomNode.optionNode ⟨some "0", "Zero", true⟩]] =
      (⟨⟨.node [] [] []⟩, .undefined, none⟩, []) :=
  setTopic_falsy_id_noop _ _ ⟨⟨some "0", "Zero", true⟩, []⟩ (by rfl) (by simp) (by rfl)

/-- C9: a child name present in both `entries` and `subcategories` is
rendered as a leaf entry fragment — the `entries` lookup is checked first —
and the result does not depend on the shadowed subcategory: no recursion
into it happens. -/
theorem entries_shadow_subcategories (t : Templates) (name : String)
    (rest : List String) (e : List (String × Entry)) (s : List (String × CategoryMap))
    (entry : Entry) (sub : CategoryMap)
    (hentry : assoc e name = some entry) (hsub : assoc s name = some sub) :
    renderCategoryMap t (.node (name :: rest) e s) =
      (renderCategoryMap t (.node rest e s)).map
        (fun r => t.entryTemplate name entry.id entry.is_cohorted ++ r) := by
  rw [renderCategoryMap_node, renderCategoryMap_node]
  simp only [mapOpt]
  rw [childFragment_entry t e s name entry hentry]
  cases hm : mapOpt (childFragment t e s) rest with
  | none => rfl
  | some frags => rfl

theorem entries_shadow_subcategories_witness :
    renderCategoryMap ⟨fun n i _ => "E-" ++ n ++ "-" ++ i, fun n r => "C-" ++ n ++ "-" ++ r⟩
        (.node ["X"] [("X", ⟨"id-x", false⟩)] [("X", CategoryMap.node [] [] [])]) =
      (renderCategoryMap ⟨fun n i _ => "E-" ++ n ++ "-" ++ i, fun n r => "C-" ++ n ++ "-" ++ r⟩
        (.node [] [("X", ⟨"id-x", false⟩)] [("X", CategoryMap.node [] [] [])])).map
        (fun r => "E-X-id-x" ++ r) :=
  entries_shadow_subcategories _ "X" [] _ _ ⟨"id-x", false⟩ (CategoryMap.node [] [] [])
    (by rfl) (by rfl)

/-- C10: whenever `setTopic` fires the `thread:topic_change` trigger, the
view state has already been updated: at the moment the trigger fires,
`getCurrentTopicId` returns the selected option's parsed id, the cached
display name equals that option's full topic name, and the state at the
trigger is the state `setTopic` returns. -/
theorem emission_sees_updated_state (v : View) (target : List DomNode)
    (e : Emission) (h : e ∈ (setTopic v target).2) :
    getCurrentTopicId e.viewAt = jqData e.option.data.discussionIdAttr ∧
    e.viewAt.topicText = some (getFullTopicNameOf e.option) ∧
    e.viewAt = (setTopic v target).1 := by
  unfold setTopic at h ⊢
  cases hsel : (jqFindSelected target).head? with
  | none =>
    rw [hsel] at h
    cases h
  | some opt =>
    rw [hsel] at h
    cases ht : jsTruthy (jqData opt.data.discussionIdAttr) with
    | false =>
      simp [ht] at h
    | true =>
      simp [ht] at h
      subst h
      simp [ht, getCurrentTopicId, getFullTopicName]

theorem emission_sees_updated_state_witness :
    getCurrentTopicId
        (⟨⟨⟨some "t-9", "General", true⟩, []⟩,
          ⟨⟨.node [] [] []⟩, .str "t-9", some "General"⟩⟩ : Emission).viewAt =
      jqData (some "t-9") ∧
    (⟨⟨⟨some "t-9", "General", true⟩, []⟩,
      ⟨⟨.node [] [] []⟩, .str "t-9", some "General"⟩⟩ : Emission).viewAt.topicText =
      some (getFullTopicNameOf ⟨⟨some "t-9", "General", true⟩, []⟩) ∧
    (⟨⟨⟨some "t-9", "General", true⟩, []⟩,
      ⟨⟨.node [] [] []⟩, .str "t-9", some "General"⟩⟩ : Emission).viewAt =
      (setTopic ⟨⟨.node [] [] []⟩, .undefined, none⟩
        [DomNode.selectNode [DomNode.optionNode ⟨some "t-9", "General", true⟩]]).1 :=
  emission_sees_updated_state ⟨⟨.node [] [] []⟩, .undefined, none⟩
    [DomNode.selectNode [DomNode.optionNode ⟨some "t-9", "General", true⟩]]
    ⟨⟨⟨some "t-9", "General", true⟩, []⟩,
      ⟨⟨.node [] [] []⟩, .str "t-9", some "General"⟩⟩
    (List.Mem.head _)

end DiscussionTopicMenu
